/-
Verification of the gmail-tldr orchestration core.

Shallow embedding of the cursor logic, sync guard, dedup loop, summarizer,
persistence upsert, sentence pre-filter, header extraction and the offscreen
database dispatcher, each translated from the TypeScript source, with
theorems settling the specification's testable properties against them.
-/
import Mathlib

set_option maxRecDepth 4000

/-! ## Sync cursor (background.ts `checkGmailForNewMessages`, part_011)

`background.ts` lines 149-181: `startHistoryId` is loaded, `newHistoryId`
starts equal to it, is replaced by `historyData.historyId || startHistoryId`
after the history fetch, and is persisted under
`if (newHistoryId && newHistoryId !== startHistoryId)`.
Gmail history ids are numeric strings; cursors are modelled as `Option Nat`
(`none` = absent/falsy). -/

/-- Cursor stored after one non-bootstrap sync cycle of `background.ts`:
`newHistoryId = historyData.historyId || startHistoryId`, saved only when
present and different from the start cursor. -/
def cycleCursorBg (stored : Nat) (reported : Option Nat) : Option Nat :=
  let newHistoryId := reported.getD stored
  if newHistoryId ≠ stored then some newHistoryId else some stored

/-- Cursor stored after one non-bootstrap cycle of `part_011` lines 113-176:
`newHistoryId = historyResponse.nextHistoryId || historyResponse.historyId`,
and `if (newHistoryId) saveHistoryId(newHistoryId)` with no comparison. -/
def cycleCursorP11 (stored : Nat) (nextHistoryId historyId : Option Nat) :
    Option Nat :=
  match nextHistoryId with
  | some c => some c
  | none =>
    match historyId with
    | some c => some c
    | none => some stored

/-! ## Sync guard interleaving (background.ts lines 130-138, part_012)

`checkGmailForNewMessages` runs `await getSyncStatus()` (a suspension point),
returns if it reads `'syncing'`, and otherwise runs `await setSyncStatus('syncing')`
(another suspension point) before fetching. Each invocation is sliced at its
awaits into atomic steps over the shared stored status. -/

inductive SyncStatus
  | idle
  | syncing
  | error
deriving DecidableEq, Repr

/-- One in-flight invocation of `checkGmailForNewMessages`:
`pc = 0` — about to run `await getSyncStatus()` (the guard read);
`pc = 1` — guard passed, about to run `await setSyncStatus('syncing')`;
`pc = 2` — entered the fetch/process phase;
`pc = 3` — returned at the guard (logged no-op). -/
structure SyncTask where
  pc : Nat
  entered : Bool
deriving DecidableEq, Repr

/-- One atomic step of a sync invocation against the shared stored status. -/
def stepTask (st : SyncStatus) (t : SyncTask) : SyncStatus × SyncTask :=
  if t.pc = 0 then
    if st = SyncStatus.syncing then (st, ⟨3, false⟩) else (st, ⟨1, t.entered⟩)
  else if t.pc = 1 then
    (SyncStatus.syncing, ⟨2, true⟩)
  else
    (st, t)

/-- Two overlapping triggers (timer tick and `TRIGGER_SYNC_NOW`) sharing the
stored sync status. -/
structure SyncSystem where
  status : SyncStatus
  t0 : SyncTask
  t1 : SyncTask
deriving DecidableEq, Repr

/-- Scheduler: run one atomic step of the chosen task
(`false` = first trigger, `true` = second trigger). -/
def stepSystem (sys : SyncSystem) (which : Bool) : SyncSystem :=
  if which then
    let r := stepTask sys.status sys.t1
    { sys with status := r.1, t1 := r.2 }
  else
    let r := stepTask sys.status sys.t0
    { sys with status := r.1, t0 := r.2 }

/-- Run a whole interleaving schedule. -/
def runSchedule (sys : SyncSystem) (sched : List Bool) : SyncSystem :=
  sched.foldl stepSystem sys

/-- Both triggers pending at the guard with the orchestrator idle. -/
def initialSyncSystem : SyncSystem :=
  ⟨SyncStatus.idle, ⟨0, false⟩, ⟨0, false⟩⟩

/-! ## Gemini Nano summarizer (lib/ai/gemini.ts, lib/ai/types.ts)

The external `LanguageModel` capability is represented by outcome parameters:
`SessionOutcome` is what `create`/`initialize` does, `PromptOutcome` what the
awaited `session.prompt(...)` call does (the 30s `AbortController` timeout
surfaces as a `DOMException` named `AbortError`). `summarize` itself is then a
pure function of its text and those outcomes. -/

/-- JS `String.prototype.trim()`: strip leading and trailing whitespace
(spelled out over the character list so that it evaluates by reduction). -/
def jsTrim (s : String) : String :=
  String.mk
    (((s.data.dropWhile Char.isWhitespace).reverse.dropWhile Char.isWhitespace).reverse)

/-- Outcome of creating the language-model session (`initialize`). -/
inductive SessionOutcome
  | created
  | createFailed (msg : String)
deriving DecidableEq, Repr

/-- Outcome of the awaited `session.prompt` call; `error "AbortError" msg` is
the 30-second timeout abort, any other `error` a plain failure. -/
inductive PromptOutcome
  | ok (response : String)
  | error (name msg : String)
deriving DecidableEq, Repr

structure SummaryResult where
  text : String
  tokensUsed : Nat
deriving DecidableEq, Repr

/-- A `summarize` call of `gemini.ts` lines 227-265 together with which
external calls the taken path performed. -/
structure GeminiCall where
  result : SummaryResult
  sessionInitialized : Bool
  promptInvoked : Bool
deriving DecidableEq, Repr

/-- `GeminiNanoService.summarize` from `lib/ai/gemini.ts` lines 227-265:
empty/whitespace text short-circuits to `(Empty email)` before any session
work; otherwise a missing session is initialized, the prompt is issued, and
every caught failure (timeout abort included) degrades to
`(Summary failed: <message>)` with `tokensUsed` 0. A successful response `r`
yields `r.trim()` and `Math.ceil(r.length / 0.75)` tokens. -/
def geminiSummarize (text : String) (sessionAlready : Bool)
    (so : SessionOutcome) (po : PromptOutcome) : GeminiCall :=
  if (jsTrim text).length = 0 then
    ⟨⟨"(Empty email)", 0⟩, false, false⟩
  else
    match (if sessionAlready then SessionOutcome.created else so) with
    | SessionOutcome.createFailed m =>
      ⟨⟨"(Summary failed: " ++ m ++ ")", 0⟩, !sessionAlready, false⟩
    | SessionOutcome.created =>
      match po with
      | PromptOutcome.ok r =>
        ⟨⟨jsTrim r, (4 * r.length + 2) / 3⟩, !sessionAlready, true⟩
      | PromptOutcome.error _ m =>
        ⟨⟨"(Summary failed: " ++ m ++ ")", 0⟩, !sessionAlready, true⟩

/-- Result shape of the first `GeminiNanoService.summarize` variant in
`gemini.ts` lines 75-100, where `tokensUsed` may be omitted. -/
structure SummaryResultV1 where
  text : String
  tokensUsed : Option Nat
deriving DecidableEq, Repr

/-- The `gemini.ts` lines 75-100 variant: `if (!text?.trim()) return
(Empty email)` with no token count; failures become `(Error: <message>)`;
success yields `cleanResponse` with `Math.ceil(cleanResponse.length / 4)`. -/
def geminiSummarizeV1 (text : String) (sessionAlready : Bool)
    (so : SessionOutcome) (po : PromptOutcome) : SummaryResultV1 :=
  if (jsTrim text).length = 0 then
    ⟨"(Empty email)", none⟩
  else
    match (if sessionAlready then SessionOutcome.created else so) with
    | SessionOutcome.createFailed m => ⟨"(Error: " ++ m ++ ")", none⟩
    | SessionOutcome.created =>
      match po with
      | PromptOutcome.ok r => ⟨jsTrim r, some (((jsTrim r).length + 3) / 4)⟩
      | PromptOutcome.error _ m => ⟨"(Error: " ++ m ++ ")", none⟩

structure AISummaryResult where
  text : String
  provider : String
  tokensUsed : Option Nat
deriving DecidableEq, Repr

/-- The `AIService` variant `GeminiNanoService.summarize` embedded in
`lib/ai/types.ts` lines 184-236: no empty-text check, and the catch branch
distinguishes the abort (`DOMException` named `AbortError`, from the 30s
timeout) — sentinel `(Summarization timed out)` — from every other failure —
sentinel `(Error generating summary)`. -/
def aiServiceSummarize (sessionAlready : Bool) (so : SessionOutcome)
    (po : PromptOutcome) : AISummaryResult :=
  match (if sessionAlready then SessionOutcome.created else so) with
  | SessionOutcome.createFailed _ =>
    ⟨"(Error generating summary)", "gemini-nano", none⟩
  | SessionOutcome.created =>
    match po with
    | PromptOutcome.ok r =>
      ⟨jsTrim r, "gemini-nano", some ((4 * r.length + 2) / 3)⟩
    | PromptOutcome.error name _ =>
      if name = "AbortError" then
        ⟨"(Summarization timed out)", "gemini-nano", none⟩
      else
        ⟨"(Error generating summary)", "gemini-nano", none⟩

/-! ## Per-cycle message loop (part_012 lines 286-339, part_011 lines 124-172)

For every `messagesAdded` id of the history response: skip it when it is in
the in-memory `processedMessageIds` set (no fetch, no offscreen filter, no
summarize, no record); otherwise fetch the full message, run the offscreen
pre-filter, summarize when the filter returned non-empty tokens (attaching
`(Preprocessing failed)` otherwise), push the record and add the id to the
set. A thrown per-message fetch is caught: nothing is pushed and the id is
not added. -/

/-- External behaviour relevant to one message id during a cycle. -/
structure MsgEnv where
  fetchOk : Bool
  preprocess : Option (List String × List String)
  sessionAlready : Bool
  sessionOutcome : SessionOutcome
  promptOutcome : PromptOutcome

/-- Observable effects accumulated by one sync cycle: the dedup set, the ids
passed to `getFullMessage`, the ids sent to the offscreen pre-filter, the ids
for which `gemini.summarize` ran, and the `(id, summary)` records pushed into
`newEmails` (then persisted via `appendNewEmails` and fanned out). -/
structure CycleState where
  processed : List String
  fetched : List String
  filtered : List String
  summarized : List String
  pushed : List (String × String)

/-- Loop body of part_012 lines 289-337 for one reported message id. -/
def processMessageId (env : String → MsgEnv) (s : CycleState) (id : String) :
    CycleState :=
  if id ∈ s.processed then s
  else
    let e := env id
    if e.fetchOk then
      match e.preprocess with
      | some (tokens, _entities) =>
        if tokens.length > 0 then
          let call := geminiSummarize (String.intercalate " " tokens)
            e.sessionAlready e.sessionOutcome e.promptOutcome
          { processed := s.processed ++ [id]
            fetched := s.fetched ++ [id]
            filtered := s.filtered ++ [id]
            summarized := s.summarized ++ [id]
            pushed := s.pushed ++ [(id, call.result.text)] }
        else
          { processed := s.processed ++ [id]
            fetched := s.fetched ++ [id]
            filtered := s.filtered ++ [id]
            summarized := s.summarized
            pushed := s.pushed ++ [(id, "(Preprocessing failed)")] }
      | none =>
        { processed := s.processed ++ [id]
          fetched := s.fetched ++ [id]
          filtered := s.filtered ++ [id]
          summarized := s.summarized
          pushed := s.pushed ++ [(id, "(Preprocessing failed)")] }
    else
      { s with fetched := s.fetched ++ [id] }

/-- A whole cycle's message loop over the reported ids, starting from the
current in-memory dedup set. -/
def processCycle (env : String → MsgEnv) (dedup0 : List String)
    (ids : List String) : CycleState :=
  ids.foldl (processMessageId env) ⟨dedup0, [], [], [], []⟩

/-! ## Persistence layer (lib/db.ts)

The `email_summaries` table (`message_id TEXT PRIMARY KEY`, nullable payload
columns) is a list of rows; the SQL
`INSERT ... ON CONFLICT(message_id) DO UPDATE SET ...` of `queueEmailMetadata`
and `storeSummary` becomes insert-or-update keyed on `messageId`. -/

/-- One row of `email_summaries`; columns not supplied by an insert are NULL. -/
structure DbRow where
  messageId : String
  threadId : Option String
  fromAddr : Option String
  subject : Option String
  snippet : Option String
  summary : Option String
  labels : Option String
  tokensUsed : Option Nat
  timestamp : Option Int
  processedAt : Option Int
  updatedAt : Option Int
deriving DecidableEq, Repr

/-- `EmailMetadata` payload of `DB/QUEUE_EMAIL_METADATA`. -/
structure EmailMetadata where
  messageId : String
  threadId : String
  fromAddr : String
  subject : String
  snippet : String
  timestamp : Int
deriving DecidableEq, Repr

/-- `StoreSummaryPayload` of `DB/STORE_SUMMARY` (types/messages.ts). -/
structure StoreSummaryPayload where
  messageId : String
  summary : String
  labels : List String
  tokensUsed : Nat
  processedAt : Int
deriving DecidableEq, Repr

/-- `JSON.stringify(payload.labels)` as stored in the `labels` TEXT column
(modulo JSON string escaping, which no claim depends on). -/
def labelsJson (labels : List String) : String :=
  "[" ++ String.intercalate "," (labels.map (fun s => "\"" ++ s ++ "\"")) ++ "]"

/-- Generic list form of SQLite upsert on the `message_id` primary key:
update the conflicting row in place, else append the fresh row. -/
def upsertRow (id : String) (mk : DbRow) (upd : DbRow → DbRow)
    (t : List DbRow) : List DbRow :=
  if t.any (fun r => r.messageId = id) then
    t.map (fun r => if r.messageId = id then upd r else r)
  else
    t ++ [mk]

/-- Fresh row inserted by `queueEmailMetadata` (db.ts lines 70-90). -/
def metaRow (m : EmailMetadata) : DbRow :=
  ⟨m.messageId, some m.threadId, some m.fromAddr, some m.subject,
    some m.snippet, none, none, none, some m.timestamp, none, none⟩

/-- `ON CONFLICT` update of `queueEmailMetadata`: overwrite thread, sender,
subject, snippet and timestamp with the excluded row's values. -/
def metaUpdate (m : EmailMetadata) (r : DbRow) : DbRow :=
  { r with threadId := some m.threadId, fromAddr := some m.fromAddr,
           subject := some m.subject, snippet := some m.snippet,
           timestamp := some m.timestamp }

/-- `queueEmailMetadata` (db.ts lines 65-99) acting on the table. -/
def queueEmailMetadata (m : EmailMetadata) (t : List DbRow) : List DbRow :=
  upsertRow m.messageId (metaRow m) (metaUpdate m) t

/-- Fresh row inserted by `storeSummary` (db.ts lines 106-126); `now` is the
`Date.now()` written into `updated_at`. -/
def summaryRow (p : StoreSummaryPayload) (now : Int) : DbRow :=
  ⟨p.messageId, none, none, none, none, some p.summary,
    some (labelsJson p.labels), some p.tokensUsed, none,
    some p.processedAt, some now⟩

/-- `ON CONFLICT` update of `storeSummary`: overwrite summary, labels, token
count, processed-at and updated-at. -/
def summaryUpdate (p : StoreSummaryPayload) (now : Int) (r : DbRow) : DbRow :=
  { r with summary := some p.summary, labels := some (labelsJson p.labels),
           tokensUsed := some p.tokensUsed, processedAt := some p.processedAt,
           updatedAt := some now }

/-- `storeSummary` (db.ts lines 101-135) acting on the table. -/
def storeSummary (p : StoreSummaryPayload) (now : Int) (t : List DbRow) :
    List DbRow :=
  upsertRow p.messageId (summaryRow p now) (summaryUpdate p now) t

/-- `totalCount` reported by `listRecentSummaries` (db.ts lines 143-153):
`SELECT COUNT(*) FROM email_summaries`. -/
def listTotalCount (t : List DbRow) : Nat :=
  t.length

/-- Number of table rows keyed on a given message id. -/
def countId (t : List DbRow) (id : String) : Nat :=
  (t.filter (fun r => r.messageId = id)).length

/-- The primary-key invariant of `email_summaries`. -/
def uniqueIds (t : List DbRow) : Prop :=
  (t.map (fun r => r.messageId)).Nodup

/-! ## Stage-1 pre-filter (lib/nlp/preprocess.ts lines 10-102)

Text is a `List Char`. The function first collapses whitespace
(`replace(/\s+/g, ' ').trim()`, modelled over the ASCII whitespace class),
then segments into sentences (the external wink-nlp segmenter, modelled as
splitting after terminal `.`/`!`/`?` punctuation, consuming the single
following space), drops greeting / closing / device-signature sentences, and
rejoins the kept ones with single spaces. The `DOMParser` branch guarded by
the markup test is the external host parser; theorems about the filter take
the non-markup path (`htmlish input = false`). Label inference (lines 67-87)
reads the original text only and never contributes to the filtered text, so
it is not part of this embedding. -/

/-- ASCII whitespace matched by the source's `\s` class. -/
def isWsChar (c : Char) : Bool :=
  c = ' ' || c = '\t' || c = '\n' || c = '\r' || c = '\x0b' || c = '\x0c'

/-- Single pass implementing `replace(/\s+/g, ' ').trim()`: `started` records
whether a non-space character was emitted, `sawWs` whether whitespace has been
consumed since the last emitted character. -/
def normAux (started sawWs : Bool) : List Char → List Char
  | [] => []
  | c :: cs =>
    if isWsChar c then normAux started true cs
    else if started && sawWs then ' ' :: c :: normAux true false cs
    else c :: normAux true false cs

/-- `cleanText = cleanText.replace(/\s+/g, ' ').trim()` (preprocess.ts 27). -/
def normWs (l : List Char) : List Char :=
  normAux false false l

/-- Sentence-terminal punctuation. -/
def isSenBoundary (c : Char) : Bool :=
  c = '.' || c = '!' || c = '?'

/-- Model of the external wink-nlp sentence segmenter over whitespace-collapsed
text: a sentence ends at terminal punctuation followed by a space (the
separator space belongs to no sentence). -/
def splitSenAux : List Char → List Char → List (List Char)
  | [], acc => if acc.isEmpty then [] else [acc.reverse]
  | [c], acc => [(c :: acc).reverse]
  | c :: d :: cs, acc =>
    if isSenBoundary c then
      if d = ' ' then (c :: acc).reverse :: splitSenAux cs []
      else splitSenAux (d :: cs) (c :: acc)
    else
      splitSenAux (d :: cs) (c :: acc)

/-- `doc.sentences().out()` (preprocess.ts 40). -/
def splitSen (l : List Char) : List (List Char) :=
  splitSenAux l []

/-- `keptSentences.join(' ')` (preprocess.ts 89). -/
def joinSp : List (List Char) → List Char
  | [] => []
  | [w] => w
  | w :: ws => w ++ ' ' :: joinSp ws

/-- JS `\w` word characters, for the `\b` boundary in the greeting rule. -/
def isWordChar (c : Char) : Bool :=
  c.isAlpha || c.isDigit || c = '_'

/-- Case-insensitive prefix test against an already-lowercase pattern. -/
def startsWithCI (w : String) (s : List Char) : Bool :=
  w.toList.isPrefixOf (s.map Char.toLower)

/-- Word boundary right after the first `w.length` characters of `s`. -/
def boundaryAfter (w : String) (s : List Char) : Bool :=
  match s.drop w.length with
  | [] => true
  | c :: _ => !isWordChar c

/-- `/^(hi|hello|dear|hey|good morning|greetings)\b/i` (preprocess.ts 47). -/
def isGreeting (s : List Char) : Bool :=
  ["hi", "hello", "dear", "hey", "good morning", "greetings"].any
    (fun w => startsWithCI w s && boundaryAfter w s)

/-- Strip an already-lowercase pattern from the front, if present. -/
def dropPrefixWord (w : String) (s : List Char) : Option (List Char) :=
  if w.toList.isPrefixOf s then some (s.drop w.length) else none

/-- `/^(best|kind|warm)?\s*(regards|wishes|cheers|thanks|sincerely),?$/i`
(preprocess.ts 53): optional adjective, optional whitespace, sign-off token,
optional comma, end of sentence. -/
def isClosing (s : List Char) : Bool :=
  let t := s.map Char.toLower
  let t1 :=
    match dropPrefixWord "best" t with
    | some r => r
    | none =>
      match dropPrefixWord "kind" t with
      | some r => r
      | none => (dropPrefixWord "warm" t).getD t
  let t2 := t1.dropWhile isWsChar
  ["regards", "wishes", "cheers", "thanks", "sincerely"].any (fun w =>
    match dropPrefixWord w t2 with
    | some rest => rest = [] || rest = [',']
    | none => false)

/-- `/sent from my/i.test(s)` (preprocess.ts 59). -/
def isDeviceSig (s : List Char) : Bool :=
  decide ("sent from my".toList <:+: s.map Char.toLower)

/-- The ordered drop-rule set of preprocess.ts lines 43-65; `keptEmpty` is the
source's `keptSentences.length === 0` gate on the greeting rule. Returns the
`droppedSpans` type tag, or `none` when the sentence is kept. -/
def classifySentence (keptEmpty : Bool) (s : List Char) : Option String :=
  if keptEmpty && isGreeting s then some "greeting"
  else if isClosing s then some "closing"
  else if isDeviceSig s then some "device_signature"
  else none

/-- The `sentences.forEach` filter loop (preprocess.ts 43-65), keeping
sentences in order. -/
def keepGo (keptEmpty : Bool) : List (List Char) → List (List Char)
  | [] => []
  | s :: rest =>
    match classifySentence keptEmpty s with
    | some _ => keepGo keptEmpty rest
    | none => s :: keepGo false rest

/-- `'>'` occurring somewhere in the remainder. -/
def hasTagEnd : List Char → Bool
  | [] => false
  | c :: cs => c = '>' || hasTagEnd cs

/-- `/<[a-z][\s\S]*>/i.test(text)` (preprocess.ts 18). -/
def htmlTagTest : List Char → Bool
  | [] => false
  | c :: cs =>
    (c = '<' &&
      (match cs with
       | d :: ds => d.toLower.isAlpha && hasTagEnd ds
       | [] => false)) ||
    htmlTagTest cs

/-- After `&` and one letter: letters then `;`. -/
def entityTailTest : List Char → Bool
  | [] => false
  | c :: cs => if c = ';' then true else if c.isAlpha then entityTailTest cs else false

/-- `/&[a-z]+;/i.test(text)` (preprocess.ts 18). -/
def htmlEntityTest : List Char → Bool
  | [] => false
  | c :: cs =>
    (c = '&' &&
      (match cs with
       | d :: ds => d.isAlpha && entityTailTest ds
       | [] => false)) ||
    htmlEntityTest cs

/-- The markup guard on the `DOMParser` branch (preprocess.ts 18). -/
def htmlish (l : List Char) : Bool :=
  htmlTagTest l || htmlEntityTest l

/-- `preprocessEmailForLLM(rawEmailText).email_text_filtered` on the
non-markup path: collapse whitespace, segment, drop chatter, rejoin with
single spaces. -/
def preprocessEmailForLLM (input : List Char) : List Char :=
  joinSp (keepGo true (splitSen (normWs input)))

/-! ## Header extraction (lib/gmail.ts `extractEmailData`, background.ts
`parseHeaders`) -/

structure EmailHeader where
  name : String
  value : String
deriving DecidableEq, Repr

/-- The four extracted header fields. -/
structure HeaderFields where
  subject : String
  fromAddr : String
  toAddr : String
  date : String
deriving DecidableEq, Repr

/-- `headers.find(h => h.name === n)?.value` (case-sensitive name match). -/
def findHeaderValue (hs : List EmailHeader) (n : String) : Option String :=
  (hs.find? (fun h => h.name = n)).map (fun h => h.value)

/-- JS `headers.find(...)?.value || fallback`: absent header or empty (falsy)
value yields the fallback. -/
def headerOr (hs : List EmailHeader) (n fallback : String) : String :=
  match findHeaderValue hs n with
  | some v => if v = "" then fallback else v
  | none => fallback

/-- `extractEmailData` header fields (lib/gmail.ts lines 44-61, identical in
part_004 lines 85-102 and part_005 lines 81-99); `headers` is
`message.payload.headers || []`. -/
def extractEmailData (headers : Option (List EmailHeader)) : HeaderFields :=
  let hs := headers.getD []
  ⟨headerOr hs "Subject" "(No Subject)",
   headerOr hs "From" "Unknown Sender",
   headerOr hs "To" "Unknown Recipient",
   headerOr hs "Date" "Unknown Date"⟩

/-- One iteration of the `parseHeaders` loop (background.ts lines 344-350):
lower-cased name dispatch overwriting the matching field. -/
def parseHeadersStep (r : HeaderFields) (h : EmailHeader) : HeaderFields :=
  let n := h.name.toLower
  if n = "subject" then { r with subject := h.value }
  else if n = "from" then { r with fromAddr := h.value }
  else if n = "to" then { r with toAddr := h.value }
  else if n = "date" then { r with date := h.value }
  else r

/-- `parseHeaders` (background.ts lines 341-352): defaults are
`'(No Subject)'`, `'Unknown'`, `'Unknown'` and the empty string. -/
def parseHeaders (headers : Option (List EmailHeader)) : HeaderFields :=
  match headers with
  | none => ⟨"(No Subject)", "Unknown", "Unknown", ""⟩
  | some hs => hs.foldl parseHeadersStep ⟨"(No Subject)", "Unknown", "Unknown", ""⟩

/-! ## Offscreen database dispatcher (part_013 lines 12-415,
background-db-integration.ts, privacy-audit.ts)

The `key_points` / `email_metadata` schema is two row lists. The
`chrome.runtime.onMessage` switch (part_013 lines 360-394) is `dispatchOffscreen`;
the retention sweep of `enforceDataRetention` (privacy-audit.ts lines 50-77)
sends `{action: 'DB_DELETE_BEFORE', timestamp}`, which is modelled as the
`deleteBefore` action — the switch has no case for it, so it falls through to
`default`. -/

structure KeyPointRow where
  id : String
  emailId : String
  keyPoint : String
  extractedAt : Int
deriving DecidableEq, Repr

structure MetaRow where
  emailId : String
  fromAddr : String
  timestamp : Int
  keyPointCount : Int
  lastProcessed : Option Int
  deletedAt : Option Int
deriving DecidableEq, Repr

structure OffscreenDb where
  keyPoints : List KeyPointRow
  emailMeta : List MetaRow
deriving DecidableEq, Repr

/-- The `DatabaseResponse` envelope fields the claims depend on. -/
structure OffscreenResponse where
  success : Bool
  error : Option String
  code : Option String
deriving DecidableEq, Repr

/-- The `DatabaseMessage` actions the repository actually sends, including the
retention sweep's `DB_DELETE_BEFORE` message. -/
inductive OffscreenAction
  | insertKeyPoint (kp : KeyPointRow)
  | queryKeyPoints (emailId : String)
  | deleteEmail (emailId : String)
  | exportData
  | stats
  | clearAll (confirmToken : String)
  | deleteBefore (timestamp : Int)
deriving DecidableEq, Repr

/-- `handleInsertKeyPoint` (part_013 lines 74-120): append the key point and
bump the email's metadata counters. -/
def handleInsertKeyPoint (now : Int) (kp : KeyPointRow) (db : OffscreenDb) :
    OffscreenDb :=
  { keyPoints := db.keyPoints ++ [kp]
    emailMeta := db.emailMeta.map (fun m =>
      if m.emailId = kp.emailId then
        { m with keyPointCount := m.keyPointCount + 1, lastProcessed := some now }
      else m) }

/-- `handleDeleteEmail` (part_013 lines 176-210): soft delete —
`UPDATE email_metadata SET deleted_at = Date.now() WHERE email_id = ?`. -/
def handleDeleteEmail (now : Int) (emailId : String) (db : OffscreenDb) :
    OffscreenDb :=
  { db with emailMeta := db.emailMeta.map (fun m =>
      if m.emailId = emailId then { m with deletedAt := some now } else m) }

/-- `email_id IN (SELECT email_id FROM email_metadata WHERE deleted_at IS NOT NULL)`. -/
def isDeletedEmail (db : OffscreenDb) (emailId : String) : Bool :=
  db.emailMeta.any (fun m => m.emailId = emailId && m.deletedAt.isSome)

/-- The default-filtered listing `handleQueryKeyPoints` (part_013 lines
125-170): key points of the email, excluding soft-deleted emails. -/
def queryKeyPoints (db : OffscreenDb) (emailId : String) : List KeyPointRow :=
  db.keyPoints.filter (fun k => k.emailId = emailId && !isDeletedEmail db k.emailId)

/-- A raw existence check bypassing the soft-delete filter: the physical
`key_points` rows for the email. -/
def rawKeyPointRows (db : OffscreenDb) (emailId : String) : List KeyPointRow :=
  db.keyPoints.filter (fun k => k.emailId = emailId)

/-- The `chrome.runtime.onMessage` switch of part_013 lines 360-394. The
`deleteBefore` retention message has no case and lands in `default:`
(`UNKNOWN_ACTION`); `DB_CLEAR_ALL` requires the literal confirmation token. -/
def dispatchOffscreen (now : Int) (db : OffscreenDb) (a : OffscreenAction) :
    OffscreenDb × OffscreenResponse :=
  match a with
  | OffscreenAction.insertKeyPoint kp =>
    (handleInsertKeyPoint now kp db, ⟨true, none, none⟩)
  | OffscreenAction.queryKeyPoints _ => (db, ⟨true, none, none⟩)
  | OffscreenAction.deleteEmail id => (handleDeleteEmail now id db, ⟨true, none, none⟩)
  | OffscreenAction.exportData => (db, ⟨true, none, none⟩)
  | OffscreenAction.stats => (db, ⟨true, none, none⟩)
  | OffscreenAction.clearAll token =>
    if token = "CONFIRM_DELETE_ALL_LOCAL_DATA" then
      (⟨[], []⟩, ⟨true, none, none⟩)
    else
      (db, ⟨false, some "Invalid confirmation token", some "INVALID_TOKEN"⟩)
  | OffscreenAction.deleteBefore _ =>
    (db, ⟨false, some "Unknown action", some "UNKNOWN_ACTION"⟩)

/-! ## C1 — cursor monotonicity -/

/-- C1: the claim that a history fetch reporting a cursor older than the
stored one never overwrites the stored cursor is false: with cursor 2 stored,
a (duplicate, out-of-order) response reporting cursor 1 passes the
`newHistoryId !== startHistoryId` guard of background.ts and is persisted,
rewinding the cursor below the maximum ever observed (2); the part_011
variant saves any reported cursor unconditionally. -/
theorem cursor_rewind_counterexample :
    cycleCursorBg 1 (some 2) = some 2 ∧
    cycleCursorBg 2 (some 1) = some 1 ∧
    cycleCursorP11 2 none (some 1) = some 1 := by
  decide

/-- C1 (amended): the persisted cursor is guarded only against absent and
unchanged values — a cycle whose fetch reports no cursor or the stored cursor
leaves it unchanged, while any different reported cursor (newer or older)
overwrites it; the part_011 variant overwrites with any reported cursor at
all. Hence the stored cursor equals the last distinct reported value, not the
maximum observed. -/
theorem cursor_update_guard (s : Nat) :
    cycleCursorBg s none = some s ∧
    cycleCursorBg s (some s) = some s ∧
    (∀ c, c ≠ s → cycleCursorBg s (some c) = some c) ∧
    (∀ c, cycleCursorP11 s none (some c) = some c) ∧
    (∀ c next, cycleCursorP11 s (some next) c = some next) := by
  refine ⟨by simp [cycleCursorBg], by simp [cycleCursorBg], ?_, ?_, ?_⟩
  · intro c hc
    simp [cycleCursorBg, hc]
  · intro c
    simp [cycleCursorP11]
  · intro c next
    simp [cycleCursorP11]

/-- Witness for `cursor_update_guard` at stored cursor 2 and reported cursor 1. -/
theorem cursor_update_guard_witness :
    cycleCursorBg 2 none = some 2 ∧ cycleCursorBg 2 (some 1) = some 1 :=
  ⟨(cursor_update_guard 2).1, (cursor_update_guard 2).2.2.1 1 (by decide)⟩

/-! ## C2 — non-reentrancy of the sync guard -/

/-- C2: the claim that the syncing guard is checked and set atomically before
any suspension point — so that two overlapping triggers can never both enter
the fetch phase — is false: the guard read (`await getSyncStatus()`) and the
write (`await setSyncStatus('syncing')`) are separate awaits, and under the
interleaving guard-read₀, guard-read₁, set₀, set₁ both triggers pass the
guard and both enter the fetch/process phase. -/
theorem sync_guard_double_entry :
    (runSchedule initialSyncSystem [false, true, false, true]).t0.entered = true ∧
    (runSchedule initialSyncSystem [false, true, false, true]).t1.entered = true := by
  decide

/-- C2 (amended): a trigger whose guard read observes the stored status
`'syncing'` is a logged no-op — it never enters the fetch/process phase and
changes no state — but the check and the set span two separate suspension
points, so they are not atomic and double entry is possible (see the
counterexample). -/
theorem sync_guard_rejects_when_syncing (t : SyncTask) (h : t.pc = 0) :
    stepTask SyncStatus.syncing t = (SyncStatus.syncing, ⟨3, false⟩) ∧
    (∀ st : SyncStatus, stepTask st ⟨3, false⟩ = (st, ⟨3, false⟩)) := by
  constructor
  · simp [stepTask, h]
  · intro st
    simp [stepTask]

/-- Witness for `sync_guard_rejects_when_syncing` at a fresh trigger. -/
theorem sync_guard_rejects_when_syncing_witness :
    stepTask SyncStatus.syncing ⟨0, false⟩ = (SyncStatus.syncing, ⟨3, false⟩) :=
  (sync_guard_rejects_when_syncing ⟨0, false⟩ rfl).1

/-! ## C7 — header extraction fallbacks -/

/-- C7: the claim that the extracted fallbacks are always `"(No Subject)"`,
`"Unknown Sender"`, `"Unknown Recipient"`, `"Unknown Date"` is false for the
`parseHeaders` extraction of background.ts, whose defaults for a message with
no headers are `'Unknown'` for both sender and recipient and the empty string
for the date. -/
theorem parse_headers_fallback_counterexample :
    parseHeaders none = ⟨"(No Subject)", "Unknown", "Unknown", ""⟩ ∧
    "Unknown" ≠ "Unknown Sender" ∧ "Unknown" ≠ "Unknown Recipient" ∧
    "" ≠ "Unknown Date" := by
  refine ⟨rfl, by decide, by decide, by decide⟩

/-- C7 (amended): `extractEmailData` (lib/gmail.ts, used by the part_011 and
part_012 orchestrators) falls back to exactly `"(No Subject)"`,
`"Unknown Sender"`, `"Unknown Recipient"`, `"Unknown Date"` when a header is
absent, while `parseHeaders` (background.ts) falls back to `"(No Subject)"`,
`"Unknown"`, `"Unknown"` and the empty string. -/
theorem header_fallbacks (hs : List EmailHeader)
    (hsub : findHeaderValue hs "Subject" = none)
    (hfrom : findHeaderValue hs "From" = none)
    (hto : findHeaderValue hs "To" = none)
    (hdate : findHeaderValue hs "Date" = none) :
    extractEmailData (some hs) =
      ⟨"(No Subject)", "Unknown Sender", "Unknown Recipient", "Unknown Date"⟩ ∧
    extractEmailData none =
      ⟨"(No Subject)", "Unknown Sender", "Unknown Recipient", "Unknown Date"⟩ ∧
    parseHeaders none = ⟨"(No Subject)", "Unknown", "Unknown", ""⟩ := by
  refine ⟨?_, rfl, rfl⟩
  simp [extractEmailData, headerOr, hsub, hfrom, hto, hdate]

/-- Witness for `header_fallbacks` on a header list with no recognised names. -/
theorem header_fallbacks_witness :
    extractEmailData (some [⟨"X-Mailer", "v1"⟩]) =
      ⟨"(No Subject)", "Unknown Sender", "Unknown Recipient", "Unknown Date"⟩ :=
  (header_fallbacks [⟨"X-Mailer", "v1"⟩] (by decide) (by decide) (by decide)
    (by decide)).1

/-! ## C9 — empty-input sentinel -/

/-- C9: for empty or whitespace-only text both `GeminiNanoService.summarize`
variants of gemini.ts return the `(Empty email)` sentinel (`tokensUsed` 0
where a count is reported) without initializing a session and without
invoking the language-model prompt — the result is independent of the session
and prompt outcomes and the instrumented path records neither call. -/
theorem summarize_empty_sentinel (text : String) (h : jsTrim text = "") :
    ∀ (sa : Bool) (so : SessionOutcome) (po : PromptOutcome),
      geminiSummarize text sa so po = ⟨⟨"(Empty email)", 0⟩, false, false⟩ ∧
      geminiSummarizeV1 text sa so po = ⟨"(Empty email)", none⟩ := by
  intro sa so po
  constructor
  · simp [geminiSummarize, h]
  · simp [geminiSummarizeV1, h]

/-- Witness for `summarize_empty_sentinel` on a whitespace-only input. -/
theorem summarize_empty_sentinel_witness :
    geminiSummarize "  " true SessionOutcome.created (PromptOutcome.ok "x") =
      ⟨⟨"(Empty email)", 0⟩, false, false⟩ :=
  (summarize_empty_sentinel "  " (by decide) true SessionOutcome.created
    (PromptOutcome.ok "x")).1

/-! ## C10 — clear-all confirmation token -/

/-- C10: `DB_CLEAR_ALL` deletes the stored rows only under the literal token
`CONFIRM_DELETE_ALL_LOCAL_DATA`; any other token value yields
`success: false` with code `INVALID_TOKEN` and leaves the database contents
unchanged. -/
theorem clear_all_requires_token (db : OffscreenDb) (now : Int) (token : String)
    (h : token ≠ "CONFIRM_DELETE_ALL_LOCAL_DATA") :
    dispatchOffscreen now db (OffscreenAction.clearAll token) =
      (db, ⟨false, some "Invalid confirmation token", some "INVALID_TOKEN"⟩) ∧
    dispatchOffscreen now db
        (OffscreenAction.clearAll "CONFIRM_DELETE_ALL_LOCAL_DATA") =
      (⟨[], []⟩, ⟨true, none, none⟩) := by
  constructor
  · simp [dispatchOffscreen, h]
  · simp [dispatchOffscreen]

/-- Witness for `clear_all_requires_token` with an incorrect token. -/
theorem clear_all_requires_token_witness :
    dispatchOffscreen 0 ⟨[⟨"k", "e", "p", 0⟩], []⟩
        (OffscreenAction.clearAll "DELETE") =
      (⟨[⟨"k", "e", "p", 0⟩], []⟩,
        ⟨false, some "Invalid confirmation token", some "INVALID_TOKEN"⟩) :=
  (clear_all_requires_token ⟨[⟨"k", "e", "p", 0⟩], []⟩ 0 "DELETE" (by decide)).1

/-! ## C8 — soft delete and the retention sweep -/

/-- C8: soft delete behaves as claimed — after `DB_DELETE_EMAIL` the default
filtered listing excludes the email while the raw rows remain — but the
retention sweep never hard-deletes anything: `enforceDataRetention` sends
`DB_DELETE_BEFORE`, for which the offscreen dispatcher has no case, so the
message lands in `default:` as a failing `UNKNOWN_ACTION` no-op and the
soft-deleted row is retained forever. -/
theorem retention_sweep_unimplemented :
    queryKeyPoints
      ((dispatchOffscreen 1000 ⟨[⟨"kp1", "e1", "point", 0⟩],
        [⟨"e1", "a@b.c", 0, 1, none, none⟩]⟩
        (OffscreenAction.deleteEmail "e1")).1) "e1" = [] ∧
    rawKeyPointRows
      ((dispatchOffscreen 1000 ⟨[⟨"kp1", "e1", "point", 0⟩],
        [⟨"e1", "a@b.c", 0, 1, none, none⟩]⟩
        (OffscreenAction.deleteEmail "e1")).1) "e1" = [⟨"kp1", "e1", "point", 0⟩] ∧
    ∀ (db : OffscreenDb) (ts now : Int),
      dispatchOffscreen now db (OffscreenAction.deleteBefore ts) =
        (db, ⟨false, some "Unknown action", some "UNKNOWN_ACTION"⟩) := by
  refine ⟨by decide, by decide, fun db ts now => rfl⟩

/-! ## C3 — at-most-once effective processing per cycle -/

/-- The effects a message id already in the dedup set must never accumulate. -/
def untouchedBy (X : String) (s : CycleState) : Prop :=
  X ∉ s.fetched ∧ X ∉ s.filtered ∧ X ∉ s.summarized ∧ ∀ p ∈ s.pushed, p.1 ≠ X

lemma processMessageId_invariant (env : String → MsgEnv) (s : CycleState)
    (id X : String) (hmem : X ∈ s.processed) (hinv : untouchedBy X s) :
    X ∈ (processMessageId env s id).processed ∧
      untouchedBy X (processMessageId env s id) := by
  obtain ⟨h1, h2, h3, h4⟩ := hinv
  by_cases hc : id ∈ s.processed
  · simp only [processMessageId, if_pos hc]
    exact ⟨hmem, h1, h2, h3, h4⟩
  · have hne : X ≠ id := fun h => hc (h ▸ hmem)
    have hpush : ∀ txt, ∀ p ∈ s.pushed ++ [(id, txt)], p.1 ≠ X := by
      intro txt p hp
      rcases List.mem_append.mp hp with hp | hp
      · exact h4 p hp
      · rcases List.mem_singleton.mp hp with rfl
        exact fun h => hne h.symm
    simp only [processMessageId, if_neg hc]
    cases hf : (env id).fetchOk with
    | false =>
      simp only [hf, Bool.false_eq_true, if_false]
      refine ⟨hmem, ?_, h2, h3, h4⟩
      simp [List.mem_append, h1, hne]
    | true =>
      simp only [hf, if_true]
      have hxmem : X ∈ s.processed ++ [id] := List.mem_append.mpr (Or.inl hmem)
      have hxf : X ∉ s.fetched ++ [id] := by simp [List.mem_append, h1, hne]
      have hxfi : X ∉ s.filtered ++ [id] := by simp [List.mem_append, h2, hne]
      have hxs : X ∉ s.summarized ++ [id] := by simp [List.mem_append, h3, hne]
      rcases hp : (env id).preprocess with _ | ⟨tokens, ents⟩
      · exact ⟨hxmem, hxf, hxfi, h3, hpush _⟩
      · by_cases ht : tokens.length > 0
        · simp only [if_pos ht]
          exact ⟨hxmem, hxf, hxfi, hxs, hpush _⟩
        · simp only [if_neg ht]
          exact ⟨hxmem, hxf, hxfi, h3, hpush _⟩

lemma processCycle_invariant (env : String → MsgEnv) (ids : List String)
    (X : String) :
    ∀ s : CycleState, X ∈ s.processed → untouchedBy X s →
      X ∈ (ids.foldl (processMessageId env) s).processed ∧
        untouchedBy X (ids.foldl (processMessageId env) s) := by
  induction ids with
  | nil => exact fun s h1 h2 => ⟨h1, h2⟩
  | cons id rest ih =>
    intro s h1 h2
    have h := processMessageId_invariant env s id X h1 h2
    simpa using ih _ h.1 h.2

/-- C3: for every message id X already in the in-memory
`processedMessageIds` dedup set at cycle start, a history response reporting
X (even repeatedly) produces zero `getFullMessage` fetches for X, zero
offscreen filter calls for X, zero `gemini.summarize` calls for X, and zero
pushed/persisted records for X in that cycle. -/
theorem dedup_skip_no_effects (env : String → MsgEnv) (dedup0 ids : List String)
    (X : String) (h : X ∈ dedup0) :
    X ∉ (processCycle env dedup0 ids).fetched ∧
    X ∉ (processCycle env dedup0 ids).filtered ∧
    X ∉ (processCycle env dedup0 ids).summarized ∧
    ∀ p ∈ (processCycle env dedup0 ids).pushed, p.1 ≠ X := by
  have hinv : untouchedBy X (⟨dedup0, [], [], [], []⟩ : CycleState) := by
    simp [untouchedBy]
  exact (processCycle_invariant env ids X ⟨dedup0, [], [], [], []⟩ h hinv).2

/-- Witness for `dedup_skip_no_effects`: id `m1` already in the dedup set is
reported again alongside `m2`. -/
theorem dedup_skip_no_effects_witness :
    "m1" ∉ (processCycle
      (fun _ => ⟨true, some (["hello"], []), true, SessionOutcome.created,
        PromptOutcome.ok "sum"⟩) ["m1"] ["m1", "m2"]).fetched :=
  (dedup_skip_no_effects _ ["m1"] ["m1", "m2"] "m1" (by simp)).1

/-! ## C5 — summarization failure degradation -/

/-- C5: the claim that `summarize` returns `"(Summarization timed out)"` on
timeout and `"(Error generating summary)"` on error is false for the
`GeminiNanoService.summarize` of gemini.ts cited by the spec: on the 30s
abort it returns `"(Summary failed: <abort message>)"`, which is neither
sentinel. -/
theorem summarize_timeout_sentinel_counterexample :
    (geminiSummarize "hello" true SessionOutcome.created
        (PromptOutcome.error "AbortError" "The user aborted a request.")).result.text =
      "(Summary failed: The user aborted a request.)" ∧
    "(Summary failed: The user aborted a request.)" ≠ "(Summarization timed out)" ∧
    "(Summary failed: The user aborted a request.)" ≠ "(Error generating summary)" := by
  refine ⟨by decide, by decide, by decide⟩

/-- C5 (amended): summarization failure degrades and never aborts — on
timeout or any error the gemini.ts `summarize` returns the sentinel
`"(Summary failed: <message>)"` with `tokensUsed` 0 instead of throwing
(the `"(Summarization timed out)"` / `"(Error generating summary)"` sentinels
are those of the `AIService` variant in lib/ai/types.ts, which distinguishes
the abort), and the pipeline still pushes the message's record with the
sentinel attached rather than dropping it. -/
theorem summarize_failure_degrades (m name text : String)
    (hne : (jsTrim text).length ≠ 0) :
    (∀ sa : Bool, (geminiSummarize text sa SessionOutcome.created
        (PromptOutcome.error name m)).result =
      ⟨"(Summary failed: " ++ m ++ ")", 0⟩) ∧
    ((geminiSummarize text false (SessionOutcome.createFailed m)
        (PromptOutcome.ok "unused")).result =
      ⟨"(Summary failed: " ++ m ++ ")", 0⟩) ∧
    (∀ msg, aiServiceSummarize true SessionOutcome.created
        (PromptOutcome.error "AbortError" msg) =
      ⟨"(Summarization timed out)", "gemini-nano", none⟩) ∧
    (name ≠ "AbortError" →
      aiServiceSummarize true SessionOutcome.created
          (PromptOutcome.error name m) =
        ⟨"(Error generating summary)", "gemini-nano", none⟩) ∧
    (∀ po, aiServiceSummarize false (SessionOutcome.createFailed m) po =
      ⟨"(Error generating summary)", "gemini-nano", none⟩) ∧
    (∀ (s : CycleState) (id : String) (tokens ents : List String)
        (env : String → MsgEnv),
      id ∉ s.processed →
      env id = ⟨true, some (tokens, ents), true, SessionOutcome.created,
        PromptOutcome.error name m⟩ →
      tokens.length > 0 →
      (jsTrim (String.intercalate " " tokens)).length ≠ 0 →
      (processMessageId env s id).pushed =
        s.pushed ++ [(id, "(Summary failed: " ++ m ++ ")")]) := by
  refine ⟨?_, ?_, ?_, ?_, ?_, ?_⟩
  · intro sa
    cases sa <;> simp [geminiSummarize, hne]
  · simp [geminiSummarize, hne]
  · intro msg
    simp [aiServiceSummarize]
  · intro hname
    simp [aiServiceSummarize, hname]
  · intro po
    simp [aiServiceSummarize]
  · intro s id tokens ents env hmem henv ht hlen
    simp [processMessageId, hmem, henv, ht, geminiSummarize, hlen]

/-- Witness for `summarize_failure_degrades` on a non-timeout failure. -/
theorem summarize_failure_degrades_witness :
    (geminiSummarize "hello" true SessionOutcome.created
        (PromptOutcome.error "TypeError" "boom")).result =
      ⟨"(Summary failed: boom)", 0⟩ :=
  (summarize_failure_degrades "boom" "TypeError" "hello" (by decide)).1 true

/-! ## C4 — idempotent upsert on `messageId` -/

lemma map_ids_pointwise (f : DbRow → DbRow)
    (hf : ∀ r, (f r).messageId = r.messageId) :
    ∀ t : List DbRow,
      (t.map f).map (fun r => r.messageId) = t.map (fun r => r.messageId) := by
  intro t
  induction t with
  | nil => rfl
  | cons r rest ih => simp [hf, ih]

lemma countId_map_pointwise (f : DbRow → DbRow)
    (hf : ∀ r, (f r).messageId = r.messageId) (id : String) :
    ∀ t : List DbRow, countId (t.map f) id = countId t id := by
  intro t
  induction t with
  | nil => rfl
  | cons r rest ih =>
    by_cases h : r.messageId = id
    · have h2 : (f r).messageId = id := by rw [hf]; exact h
      simp [countId, List.filter_cons, h, h2] at ih ⊢
      exact ih
    · have h2 : ¬(f r).messageId = id := by rw [hf]; exact h
      simp [countId, List.filter_cons, h, h2] at ih ⊢
      exact ih

lemma countId_eq_zero_of_not_any (t : List DbRow) (id : String)
    (h : t.any (fun r => r.messageId = id) = false) :
    countId t id = 0 := by
  simp only [List.any_eq_false, decide_eq_true_eq] at h
  unfold countId
  rw [List.length_eq_zero]
  exact List.filter_eq_nil_iff.mpr (by intro a ha; simpa using h a ha)

lemma countId_one_of_any_nodup (id : String) :
    ∀ t : List DbRow, uniqueIds t →
      t.any (fun r => r.messageId = id) = true → countId t id = 1 := by
  intro t
  induction t with
  | nil => intro _ h; simp at h
  | cons r rest ih =>
    intro hu h
    simp only [uniqueIds, List.map_cons, List.nodup_cons] at hu
    by_cases hr : r.messageId = id
    · have hzero : countId rest id = 0 := by
        apply countId_eq_zero_of_not_any
        simp only [List.any_eq_false, decide_eq_true_eq]
        intro x hx hxid
        exact hu.1 (List.mem_map.mpr ⟨x, hx, by rw [hxid, hr]⟩)
      unfold countId at hzero ⊢
      simp [List.filter_cons, hr, hzero]
    · have hrest : rest.any (fun r => r.messageId = id) = true := by
        simpa [List.any_cons, hr] using h
      have hres := ih hu.2 hrest
      unfold countId at hres ⊢
      simpa [List.filter_cons, hr] using hres

lemma upsertRow_length_of_any (id : String) (mk : DbRow) (upd : DbRow → DbRow)
    (t : List DbRow) (h : t.any (fun r => r.messageId = id) = true) :
    (upsertRow id mk upd t).length = t.length := by
  simp [upsertRow, h]

lemma upsertRow_any (id : String) (mk : DbRow) (upd : DbRow → DbRow)
    (t : List DbRow) (hmk : mk.messageId = id)
    (hupd : ∀ r, (upd r).messageId = r.messageId) :
    (upsertRow id mk upd t).any (fun r => r.messageId = id) = true := by
  cases h : t.any (fun r => r.messageId = id) with
  | true =>
    simp only [upsertRow, h, if_true]
    simp only [List.any_eq_true, decide_eq_true_eq] at h ⊢
    obtain ⟨r, hr, hrid⟩ := h
    refine ⟨upd r, List.mem_map.mpr ⟨r, hr, by simp [hrid]⟩, by rw [hupd]; exact hrid⟩
  | false =>
    simp [upsertRow, h, List.any_append, hmk]

lemma uniqueIds_upsertRow (id : String) (mk : DbRow) (upd : DbRow → DbRow)
    (t : List DbRow) (hmk : mk.messageId = id)
    (hupd : ∀ r, (upd r).messageId = r.messageId) (hu : uniqueIds t) :
    uniqueIds (upsertRow id mk upd t) := by
  cases h : t.any (fun r => r.messageId = id) with
  | true =>
    have hpt : ∀ r : DbRow,
        ((if r.messageId = id then upd r else r)).messageId = r.messageId := by
      intro r
      by_cases hr : r.messageId = id <;> simp [hr, hupd]
    simp only [upsertRow, h, if_true]
    unfold uniqueIds
    rw [map_ids_pointwise _ hpt]
    exact hu
  | false =>
    have hne : ¬(t.any (fun r => r.messageId = id) = true) := by
      rw [h]; exact Bool.false_ne_true
    simp only [upsertRow, if_neg hne]
    unfold uniqueIds
    rw [List.map_append, List.nodup_append]
    refine ⟨hu, by simp, ?_⟩
    intro x hx hx1
    simp only [List.map_cons, List.map_nil, List.mem_singleton] at hx1
    obtain ⟨r, hr, hrid⟩ := List.mem_map.mp hx
    simp only [List.any_eq_false, decide_eq_true_eq] at h
    exact h r hr (hrid.trans (hx1.trans hmk))

lemma mem_upsertRow_latest (id : String) (mk : DbRow) (upd : DbRow → DbRow)
    (t : List DbRow) (row : DbRow) (hrow : row ∈ upsertRow id mk upd t)
    (hid : row.messageId = id) :
    row = mk ∨ ∃ r, r ∈ t ∧ row = upd r := by
  by_cases h : t.any (fun r => r.messageId = id) = true
  · simp only [upsertRow, h, if_true] at hrow
    obtain ⟨r, hr, hrrow⟩ := List.mem_map.mp hrow
    by_cases hrid : r.messageId = id
    · exact Or.inr ⟨r, hr, by rw [← hrrow]; simp [hrid]⟩
    · rw [if_neg hrid] at hrrow
      exact absurd (hrrow ▸ hid) hrid
  · have h' : t.any (fun r => r.messageId = id) = false := by
      cases hx : t.any (fun r => r.messageId = id)
      · rfl
      · exact absurd hx h
    simp only [upsertRow, h', Bool.false_eq_true, if_false] at hrow
    rcases List.mem_append.mp hrow with hmem | hmem
    · exfalso
      simp only [List.any_eq_false, decide_eq_true_eq] at h'
      exact h' row hmem hid
    · exact Or.inl (List.mem_singleton.mp hmem)

lemma countId_upsertRow (id : String) (mk : DbRow) (upd : DbRow → DbRow)
    (t : List DbRow) (hmk : mk.messageId = id)
    (hupd : ∀ r, (upd r).messageId = r.messageId) (hu : uniqueIds t) :
    countId (upsertRow id mk upd t) id = 1 := by
  cases h : t.any (fun r => r.messageId = id) with
  | true =>
    have hpt : ∀ r : DbRow,
        ((if r.messageId = id then upd r else r)).messageId = r.messageId := by
      intro r
      by_cases hr : r.messageId = id <;> simp [hr, hupd]
    simp only [upsertRow, h, if_true]
    rw [countId_map_pointwise _ hpt]
    exact countId_one_of_any_nodup id t hu h
  | false =>
    simp only [upsertRow, h, Bool.false_eq_true, if_false]
    have h0 := countId_eq_zero_of_not_any t id h
    simp [countId, List.filter_append, List.filter_cons, hmk] at h0 ⊢
    simpa [countId] using h0

/-- C4: writing a record twice with the same `messageId` — via
`queueEmailMetadata` or via `storeSummary` — leaves exactly one row keyed on
that id, that row carries the latest field values of the write, and the
`totalCount` reported by `listRecentSummaries` does not increase on the
second write. -/
theorem upsert_idempotent_total (t : List DbRow) (hu : uniqueIds t)
    (m : EmailMetadata) (p : StoreSummaryPayload) (n1 n2 : Int) :
    countId (queueEmailMetadata m (queueEmailMetadata m t)) m.messageId = 1 ∧
    listTotalCount (queueEmailMetadata m (queueEmailMetadata m t)) =
      listTotalCount (queueEmailMetadata m t) ∧
    (∀ row ∈ queueEmailMetadata m (queueEmailMetadata m t),
      row.messageId = m.messageId →
        row.threadId = some m.threadId ∧ row.fromAddr = some m.fromAddr ∧
        row.subject = some m.subject ∧ row.snippet = some m.snippet ∧
        row.timestamp = some m.timestamp) ∧
    countId (storeSummary p n2 (storeSummary p n1 t)) p.messageId = 1 ∧
    listTotalCount (storeSummary p n2 (storeSummary p n1 t)) =
      listTotalCount (storeSummary p n1 t) ∧
    (∀ row ∈ storeSummary p n2 (storeSummary p n1 t),
      row.messageId = p.messageId →
        row.summary = some p.summary ∧ row.labels = some (labelsJson p.labels) ∧
        row.tokensUsed = some p.tokensUsed ∧
        row.processedAt = some p.processedAt ∧ row.updatedAt = some n2) := by
  have hmkm : (metaRow m).messageId = m.messageId := rfl
  have hupdm : ∀ r, (metaUpdate m r).messageId = r.messageId := fun r => rfl
  have hmks : ∀ n : Int, (summaryRow p n).messageId = p.messageId := fun n => rfl
  have hupds : ∀ (n : Int) r, (summaryUpdate p n r).messageId = r.messageId :=
    fun n r => rfl
  have hu1m : uniqueIds (queueEmailMetadata m t) :=
    uniqueIds_upsertRow _ _ _ t hmkm hupdm hu
  have hu1s : uniqueIds (storeSummary p n1 t) :=
    uniqueIds_upsertRow _ _ _ t (hmks n1) (hupds n1) hu
  have hany1m := upsertRow_any m.messageId (metaRow m) (metaUpdate m) t hmkm hupdm
  have hany1s :=
    upsertRow_any p.messageId (summaryRow p n1) (summaryUpdate p n1) t
      (hmks n1) (hupds n1)
  refine ⟨?_, ?_, ?_, ?_, ?_, ?_⟩
  · exact countId_upsertRow _ _ _ _ hmkm hupdm hu1m
  · exact upsertRow_length_of_any _ _ _ _ hany1m
  · intro row hrow hid
    rcases mem_upsertRow_latest _ _ _ _ row hrow hid with h | ⟨r, _, h⟩
    · subst h; exact ⟨rfl, rfl, rfl, rfl, rfl⟩
    · subst h; exact ⟨rfl, rfl, rfl, rfl, rfl⟩
  · exact countId_upsertRow _ _ _ _ (hmks n2) (hupds n2) hu1s
  · exact upsertRow_length_of_any _ _ _ _ hany1s
  · intro row hrow hid
    rcases mem_upsertRow_latest _ _ _ _ row hrow hid with h | ⟨r, _, h⟩
    · subst h; exact ⟨rfl, rfl, rfl, rfl, rfl⟩
    · subst h; exact ⟨rfl, rfl, rfl, rfl, rfl⟩

/-- Witness for `upsert_idempotent_total` on an initially empty table. -/
theorem upsert_idempotent_total_witness :
    countId (storeSummary ⟨"id1", "sum", ["l"], 3, 7⟩ 20
      (storeSummary ⟨"id1", "sum", ["l"], 3, 7⟩ 10 [])) "id1" = 1 :=
  (upsert_idempotent_total [] (by simp [uniqueIds])
    ⟨"id1", "t", "f", "s", "sn", 0⟩ ⟨"id1", "sum", ["l"], 3, 7⟩ 10 20).2.2.2.1

/-! ## C6 — the stage-1 filter never grows text -/

lemma normAux_length : ∀ (l : List Char) (s w : Bool),
    (normAux s w l).length ≤ l.length + (if s && w then 1 else 0) := by
  intro l
  induction l with
  | nil => intro s w; simp [normAux]
  | cons c cs ih =>
    intro s w
    simp only [normAux]
    by_cases hc : isWsChar c = true
    · rw [if_pos hc]
      have h1 := ih s true
      cases s <;> cases w <;> simp_all <;> omega
    · rw [if_neg hc]
      have h2 := ih true false
      simp at h2
      by_cases hsw : (s && w) = true
      · simp only [if_pos hsw, List.length_cons]
        omega
      · simp only [if_neg hsw, List.length_cons]
        omega

lemma joinSp_length_cons (w : List Char) (ws : List (List Char)) :
    (joinSp ws).length ≤ (joinSp (w :: ws)).length := by
  cases ws with
  | nil => simp [joinSp]
  | cons x xs => simp [joinSp]; omega

lemma le_joinSp_cons (w : List Char) (ws : List (List Char)) :
    w.length ≤ (joinSp (w :: ws)).length := by
  cases ws with
  | nil => simp [joinSp]
  | cons x xs => simp [joinSp]

lemma joinSp_length_le_of_sublist {ws' ws : List (List Char)}
    (h : List.Sublist ws' ws) : (joinSp ws').length ≤ (joinSp ws).length := by
  induction h with
  | slnil => simp
  | cons w h ih => exact le_trans ih (joinSp_length_cons w _)
  | cons₂ w h ih =>
    rename_i l₁ l₂
    cases l₁ with
    | nil => exact le_joinSp_cons w l₂
    | cons x xs =>
      cases l₂ with
      | nil => exact absurd (List.sublist_nil.mp h) (by simp)
      | cons y ys =>
        simp only [joinSp, List.length_append, List.length_cons] at ih ⊢
        omega

lemma joinSp_splitSenAux_length : ∀ (l acc : List Char),
    (joinSp (splitSenAux l acc)).length ≤ acc.length + l.length := by
  intro l acc
  induction l, acc using splitSenAux.induct with
  | case1 acc hacc => simp [splitSenAux, hacc, joinSp]
  | case2 acc hacc =>
    simp only [splitSenAux, if_neg hacc, joinSp, List.length_reverse,
      List.length_nil]
    omega
  | case3 c acc =>
    simp only [splitSenAux, joinSp, List.length_reverse, List.length_cons]
    omega
  | case4 c cs acc hb ih =>
    simp only [splitSenAux, hb, if_true, if_pos rfl]
    cases hS : splitSenAux cs [] with
    | nil =>
      simp only [joinSp, List.length_reverse, List.length_cons]
      omega
    | cons S Ss =>
      rw [← hS]
      have hlen : (joinSp ((c :: acc).reverse :: splitSenAux cs [])).length =
          (c :: acc).reverse.length + 1 + (joinSp (splitSenAux cs [])).length := by
        rw [hS]
        simp [joinSp]
        omega
      rw [hlen]
      simp only [List.length_reverse, List.length_cons]
      simp only [List.length_nil, Nat.zero_add] at ih
      omega
  | case5 c d cs acc hb hd ih =>
    simp only [splitSenAux, hb, if_true, if_neg hd]
    simp only [List.length_cons] at ih ⊢
    omega
  | case6 c d cs acc hb ih =>
    simp only [splitSenAux, if_neg hb]
    simp only [List.length_cons] at ih ⊢
    omega

lemma mem_splitSenAux_infix : ∀ (l acc s : List Char),
    s ∈ splitSenAux l acc → s <:+: (acc.reverse ++ l) := by
  intro l acc
  induction l, acc using splitSenAux.induct with
  | case1 acc hacc => intro s hs; simp [splitSenAux, hacc] at hs
  | case2 acc hacc =>
    intro s hs
    simp only [splitSenAux, if_neg hacc, List.mem_singleton] at hs
    subst hs
    simp
  | case3 c acc =>
    intro s hs
    simp only [splitSenAux, List.mem_singleton] at hs
    subst hs
    simp [List.reverse_cons]
  | case4 c cs acc hb ih =>
    intro s hs
    simp only [splitSenAux, hb, if_true, if_pos rfl, List.mem_cons] at hs
    rcases hs with hs | hs
    · subst hs
      refine ⟨[], ' ' :: cs, ?_⟩
      simp [List.reverse_cons]
    · have h1 := ih s hs
      simp only [List.reverse_nil, List.nil_append] at h1
      have h2 : cs <:+: (acc.reverse ++ c :: ' ' :: cs) :=
        ⟨acc.reverse ++ [c, ' '], [], by simp⟩
      exact h1.trans h2
  | case5 c d cs acc hb hd ih =>
    intro s hs
    simp only [splitSenAux, hb, if_true, if_neg hd] at hs
    have h1 := ih s hs
    simpa [List.reverse_cons, List.append_assoc] using h1
  | case6 c d cs acc hb ih =>
    intro s hs
    simp only [splitSenAux, if_neg hb] at hs
    have h1 := ih s hs
    simpa [List.reverse_cons, List.append_assoc] using h1

lemma keepGo_sublist : ∀ (l : List (List Char)) (b : Bool), List.Sublist (keepGo b l) l := by
  intro l
  induction l with
  | nil => intro b; simp [keepGo]
  | cons s rest ih =>
    intro b
    cases h : classifySentence b s with
    | some tag => simpa [keepGo, h] using List.Sublist.cons s (ih b)
    | none => simpa [keepGo, h] using List.Sublist.cons₂ s (ih false)

/-- C6: the claim that every sentence of the filtered text appears verbatim
in the raw input is false: on the plain-text input `"a  b"` the whitespace
collapse (preprocess.ts line 27) runs before segmentation, the single kept
sentence is `"a b"`, and `"a b"` is not a contiguous substring of `"a  b"`. -/
theorem filter_verbatim_counterexample :
    preprocessEmailForLLM "a  b".toList = "a b".toList ∧
    keepGo true (splitSen (normWs "a  b".toList)) = ["a b".toList] ∧
    htmlish "a  b".toList = false ∧
    ¬("a b".toList <:+: "a  b".toList) := by
  refine ⟨by decide, by decide, by decide, by decide⟩

/-- C6 (amended): on non-markup inputs the stage-1 filter never grows text —
`length(filteredText) ≤ length(input)` — and every kept sentence appears
verbatim in the whitespace-collapsed input (runs of whitespace replaced by a
single space and the ends trimmed), though not necessarily in the raw input. -/
theorem filter_never_grows (input : List Char) (_h : htmlish input = false) :
    (preprocessEmailForLLM input).length ≤ input.length ∧
    ∀ s ∈ keepGo true (splitSen (normWs input)), s <:+: normWs input := by
  constructor
  · unfold preprocessEmailForLLM
    calc (joinSp (keepGo true (splitSen (normWs input)))).length
        ≤ (joinSp (splitSen (normWs input))).length :=
          joinSp_length_le_of_sublist (keepGo_sublist _ true)
      _ ≤ (normWs input).length := by
          simpa [splitSen] using joinSp_splitSenAux_length (normWs input) []
      _ ≤ input.length := by
          simpa [normWs] using normAux_length input false false
  · intro s hs
    have hmem : s ∈ splitSen (normWs input) :=
      (keepGo_sublist _ true).subset hs
    simpa [splitSen] using mem_splitSenAux_infix (normWs input) [] s hmem

/-- Witness for `filter_never_grows` on a concrete plain-text email. -/
theorem filter_never_grows_witness :
    (preprocessEmailForLLM "Hi Bob, see this. Sent from my iPhone".toList).length ≤
      ("Hi Bob, see this. Sent from my iPhone".toList).length :=
  (filter_never_grows "Hi Bob, see this. Sent from my iPhone".toList (by decide)).1
